import Mathlib

/-!
Shallow embedding of the orchestration dispatcher of
`src/generators/backend/templates/src/backend/patterns/dynamic_orchestrator.py`
together with the data model it imports from
`src/generators/backend/templates/src/backend/agent_builder.py`.

Conventions of the embedding:
* An orchestrator's async-generator stream is modelled as the `List` of its
  yielded items, in emission order.  Each yielded string is tagged with the
  event kind it plays in the stream (progress, agent output, warning, error,
  final completion); the payload is the exact string the Python code yields.
* `self.agents.get(name)` followed by a truthiness test is modelled as a
  presence predicate `agents : String → Bool` standing for the instance's
  directory state.
* `messages[-1]` on an empty list raises `IndexError` before anything is
  yielded; a strategy run is therefore `Option (List Event)`, with `none` for
  that fault.
-/

/-- The `OrchestrationPattern` enum of `agent_builder.py` (lines 28-35). -/
inductive OrchestrationPattern where
  | debate
  | planner_executor
  | reasoner
  | sequential
  | parallel
  | hierarchical
deriving DecidableEq, Repr

/-- Python `str()` of an `OrchestrationPattern` member, as produced by the
f-string interpolation in `DynamicOrchestrator.process_with_workflow`
(line 167): a plain `enum.Enum` renders as `ClassName.MEMBER`. -/
def OrchestrationPattern.pyStr : OrchestrationPattern → String
  | .debate => "OrchestrationPattern.DEBATE"
  | .planner_executor => "OrchestrationPattern.PLANNER_EXECUTOR"
  | .reasoner => "OrchestrationPattern.REASONER"
  | .sequential => "OrchestrationPattern.SEQUENTIAL"
  | .parallel => "OrchestrationPattern.PARALLEL"
  | .hierarchical => "OrchestrationPattern.HIERARCHICAL"

/-- The `WorkflowConfig` dataclass of `agent_builder.py` (lines 83-97). -/
structure WorkflowConfig where
  name : String
  description : String
  pattern : OrchestrationPattern
  agents : List String
  termination_condition : Option String := none
  max_iterations : Nat := 10
deriving DecidableEq, Repr

/-- One chat message of the `messages: List[Dict[str, str]]` argument; the
orchestrators only ever read `messages[-1]['content']`. -/
structure Message where
  role : String := "user"
  content : String
deriving DecidableEq, Repr

/-- One item of an orchestrator's output stream: the yielded string, tagged
with the event kind it plays.  The payload is the exact string the Python
generator yields. -/
inductive Event where
  | Progress (payload : String)
  | Partial (payload : String)
  | Warning (payload : String)
  | Error (payload : String)
  | Final (payload : String)
deriving DecidableEq, Repr

/-- Whether an event is an agent-output `Partial` event. -/
def Event.isPartial : Event → Bool
  | .Partial _ => true
  | _ => false

/-- Whether an event is a `Warning` event. -/
def Event.isWarning : Event → Bool
  | .Warning _ => true
  | _ => false

/-- Whether an event is an `Error` event. -/
def Event.isError : Event → Bool
  | .Error _ => true
  | _ => false

/-- Whether an event is a `Final` completion event. -/
def Event.isFinal : Event → Bool
  | .Final _ => true
  | _ => false

/-- Python `sep.join(results)`: empty for `[]`, the sole element for a
singleton, and otherwise the elements interleaved with `sep`. -/
def joinSep (sep : String) : List String → String
  | [] => ""
  | [s] => s
  | s :: rest => s ++ sep ++ joinSep sep (rest)

/-- The `for agent_name in self.workflow.agents` loop of
`SequentialOrchestrator.process_conversation` (lines 52-63), yielding per
agent a progress line and then either the chained output (agent present:
`current_content` becomes the new output) or a warning (agent absent:
`current_content` is passed on unchanged). -/
def seqSteps (agents : String → Bool) : List String → String → List Event
  | [], _ => []
  | agent_name :: rest, current_content =>
    if agents agent_name then
      Event.Progress ("Agent " ++ agent_name ++ " processing...") ::
        Event.Partial ("[" ++ agent_name ++ " output]: Processed - " ++ current_content) ::
          seqSteps agents rest ("[" ++ agent_name ++ " output]: Processed - " ++ current_content)
    else
      Event.Progress ("Agent " ++ agent_name ++ " processing...") ::
        Event.Warning ("Warning: Agent " ++ agent_name ++ " not found") ::
          seqSteps agents rest current_content

/-- `SequentialOrchestrator.process_conversation` (lines 42-65).  `agents` is
the instance state `self.agents` as a presence test; the `user_id` argument
only feeds a log line and is omitted.  `none` models the `IndexError` of
`messages[-1]` on an empty message list (line 50), raised before any yield. -/
def SequentialOrchestrator.process_conversation (agents : String → Bool)
    (workflow : WorkflowConfig) (messages : List Message) : Option (List Event) :=
  (messages.getLast?).map fun last =>
    seqSteps agents workflow.agents last.content ++
      [Event.Final "Sequential processing complete"]

/-- The `for agent_name in self.workflow.agents` loop of
`ParallelOrchestrator.process_conversation` (lines 86-93): yielded events
paired with the `results` list it appends to.  Every agent gets the same
original `content`; an absent agent appends nothing and yields only its
progress line. -/
def parSteps (agents : String → Bool) (content : String) :
    List String → List Event × List String
  | [] => ([], [])
  | agent_name :: rest =>
    if agents agent_name then
      (Event.Progress ("Agent " ++ agent_name ++ " starting...") ::
        Event.Partial ("[" ++ agent_name ++ "]: Processed - " ++ content) ::
          (parSteps agents content rest).1,
       ("[" ++ agent_name ++ "]: Processed - " ++ content) ::
         (parSteps agents content rest).2)
    else
      (Event.Progress ("Agent " ++ agent_name ++ " starting...") ::
        (parSteps agents content rest).1,
       (parSteps agents content rest).2)

/-- `ParallelOrchestrator.process_conversation` (lines 74-98): the loop's
events, then the aggregating progress line, then the final event carrying
`"\n\n".join(results)` (line 97) behind its header.  `none` models the
`IndexError` of `messages[-1]` on an empty message list (line 82). -/
def ParallelOrchestrator.process_conversation (agents : String → Bool)
    (workflow : WorkflowConfig) (messages : List Message) : Option (List Event) :=
  (messages.getLast?).map fun last =>
    (parSteps agents last.content workflow.agents).1 ++
      [Event.Progress "Aggregating results...",
       Event.Final ("Final aggregated result:\n" ++
         joinSep "\n\n" (parSteps agents last.content workflow.agents).2)]

/-- The `for agent_name in worker_agents` loop of
`HierarchicalOrchestrator.process_conversation` (lines 131-136): yielded
events paired with the collected completion notices.  The directory is never
consulted here. -/
def hierSteps : List String → List Event × List String
  | [] => ([], [])
  | agent_name :: rest =>
    (Event.Progress ("Worker " ++ agent_name ++ " executing...") ::
      Event.Partial ("[" ++ agent_name ++ "]: Completed subtask") ::
        (hierSteps rest).1,
     ("[" ++ agent_name ++ "]: Completed subtask") :: (hierSteps rest).2)

/-- `HierarchicalOrchestrator.process_conversation` (lines 107-141).
`messages[-1]['content']` is read (line 115) before the empty-agents check
(line 118), so `none` models the `IndexError` on an empty message list even
when the workflow has no agents.  With agents, the first is the coordinator,
the rest are workers, and the final payload is the coordinator header plus
`"\n".join(results)` (line 140). -/
def HierarchicalOrchestrator.process_conversation (workflow : WorkflowConfig)
    (messages : List Message) : Option (List Event) :=
  (messages.getLast?).map fun _last =>
    match workflow.agents with
    | [] => [Event.Error "Error: No agents in workflow"]
    | coordinator_name :: worker_agents =>
      Event.Progress ("Coordinator " ++ coordinator_name ++ " analyzing task...") ::
        Event.Progress ("Plan: Will delegate to " ++ toString worker_agents.length ++
          " worker agents") ::
          ((hierSteps worker_agents).1 ++
            [Event.Progress "Coordinator synthesizing results...",
             Event.Final ("Coordinator " ++ coordinator_name ++ " final output:\n" ++
               joinSep "\n" (hierSteps worker_agents).2)])

/-- The three strategy classes registered in the `self.orchestrators` dict of
`DynamicOrchestrator.__init__` (lines 151-155). -/
inductive StrategyKind where
  | SequentialS
  | ParallelS
  | HierarchicalS
deriving DecidableEq, Repr

/-- The `self.orchestrators.get(workflow.pattern)` lookup (line 165): only the
three registered patterns hit; every other pattern misses. -/
def DynamicOrchestrator.orchestrators : OrchestrationPattern → Option StrategyKind
  | .sequential => some .SequentialS
  | .parallel => some .ParallelS
  | .hierarchical => some .HierarchicalS
  | _ => none

/-- `DynamicOrchestrator.process_with_workflow` (lines 157-173).  On a dict
miss it yields the single unsupported-pattern error and returns.  Otherwise it
constructs the strategy with `orchestrator_class(self.kernel, workflow)`
(line 170): `BaseOrchestrator.__init__` sets `self.agents = {}` (line 24) and
nothing in the module ever populates it, so the selected strategy runs with
the empty directory `fun _ => false`. -/
def DynamicOrchestrator.process_with_workflow (workflow : WorkflowConfig)
    (messages : List Message) : Option (List Event) :=
  match DynamicOrchestrator.orchestrators workflow.pattern with
  | none => some [Event.Error ("Error: Orchestration pattern '" ++
      workflow.pattern.pyStr ++ "' not supported")]
  | some .SequentialS =>
      SequentialOrchestrator.process_conversation (fun _ => false) workflow messages
  | some .ParallelS =>
      ParallelOrchestrator.process_conversation (fun _ => false) workflow messages
  | some .HierarchicalS =>
      HierarchicalOrchestrator.process_conversation workflow messages

/-- The agent names passed to `self.agents.get` during
`SequentialOrchestrator.process_conversation`: one lookup per loop iteration
(line 57), in list order; none at all when `messages[-1]` faults first. -/
def SequentialOrchestrator.lookups (workflow : WorkflowConfig)
    (messages : List Message) : List String :=
  match messages.getLast? with
  | none => []
  | some _ => workflow.agents

/-- The agent names passed to `self.agents.get` during
`ParallelOrchestrator.process_conversation`: one lookup per loop iteration
(line 89), in list order; none at all when `messages[-1]` faults first. -/
def ParallelOrchestrator.lookups (workflow : WorkflowConfig)
    (messages : List Message) : List String :=
  match messages.getLast? with
  | none => []
  | some _ => workflow.agents

/-- The directory lookups performed by a
`DynamicOrchestrator.process_with_workflow` run: the selected strategy's
lookups, and none when the pattern lookup itself misses
(`HierarchicalOrchestrator` never consults the directory). -/
def DynamicOrchestrator.lookups (workflow : WorkflowConfig)
    (messages : List Message) : List String :=
  match DynamicOrchestrator.orchestrators workflow.pattern with
  | none => []
  | some .SequentialS => SequentialOrchestrator.lookups workflow messages
  | some .ParallelS => ParallelOrchestrator.lookups workflow messages
  | some .HierarchicalS => []

/-! Helper lemmas about the loop bodies. -/

/-- The sequential loop never yields a `Final` event: the completion event is
appended once, after the loop. -/
theorem seqSteps_filter_final (agents : String → Bool) (names : List String) (c : String) :
    (seqSteps agents names c).filter Event.isFinal = [] := by
  induction names generalizing c with
  | nil => rfl
  | cons n rest ih =>
    cases h : agents n <;> simp [seqSteps, h, Event.isFinal, ih]

/-- The chained outputs a sequential run produces when every listed agent is
present: each stage's output feeds the next stage. -/
def seqChainedOutputs : List String → String → List String
  | [], _ => []
  | n :: rest, c =>
    ("[" ++ n ++ " output]: Processed - " ++ c) ::
      seqChainedOutputs rest ("[" ++ n ++ " output]: Processed - " ++ c)

/-- `seqChainedOutputs` has one output per listed agent. -/
theorem seqChainedOutputs_length (names : List String) (c : String) :
    (seqChainedOutputs names c).length = names.length := by
  induction names generalizing c with
  | nil => rfl
  | cons n rest ih => simp [seqChainedOutputs, ih]

/-- With every listed agent present, the sequential loop's `Partial` events
are exactly the chained outputs, in list order. -/
theorem seqSteps_filter_partial (agents : String → Bool) (names : List String)
    (c : String) (h : ∀ n ∈ names, agents n = true) :
    (seqSteps agents names c).filter Event.isPartial =
      (seqChainedOutputs names c).map Event.Partial := by
  induction names generalizing c with
  | nil => rfl
  | cons n rest ih =>
    have hn : agents n = true := h n (List.mem_cons_self n rest)
    simp only [seqSteps, hn, if_true, seqChainedOutputs, List.map_cons]
    simp [Event.isPartial, ih _ fun m hm => h m (List.mem_cons_of_mem n hm)]

/-- With an empty directory, the sequential loop yields no `Partial` event and
one warning per listed agent, in list order. -/
theorem seqSteps_empty_directory (names : List String) (c : String) :
    (seqSteps (fun _ => false) names c).filter Event.isPartial = [] ∧
    (seqSteps (fun _ => false) names c).filter Event.isWarning =
      names.map (fun n => Event.Warning ("Warning: Agent " ++ n ++ " not found")) := by
  induction names generalizing c with
  | nil => exact ⟨rfl, rfl⟩
  | cons n rest ih =>
    refine ⟨?_, ?_⟩ <;>
      simp [seqSteps, Event.isPartial, Event.isWarning, (ih c).1, (ih c).2]

/-- An absent agent's warning is yielded wherever the agent sits in the list,
whatever running content has accumulated before it. -/
theorem seqSteps_warning_mem (agents : String → Bool) (n : String)
    (h : agents n = false) (pre rest : List String) (c : String) :
    Event.Warning ("Warning: Agent " ++ n ++ " not found") ∈
      seqSteps agents (pre ++ n :: rest) c := by
  induction pre generalizing c with
  | nil => simp [seqSteps, h]
  | cons m pre ih =>
    cases hm : agents m <;> simp [seqSteps, hm, ih]

/-- The parallel loop never yields a `Warning` event. -/
theorem parSteps_filter_warning (agents : String → Bool) (content : String)
    (names : List String) :
    (parSteps agents content names).1.filter Event.isWarning = [] := by
  induction names with
  | nil => rfl
  | cons n rest ih =>
    cases h : agents n <;> simp [parSteps, h, Event.isWarning, ih]

/-- With every listed agent present, the parallel loop collects one result
per agent, in list order. -/
theorem parSteps_results (agents : String → Bool) (content : String)
    (names : List String) (h : ∀ n ∈ names, agents n = true) :
    (parSteps agents content names).2 =
      names.map (fun n => "[" ++ n ++ "]: Processed - " ++ content) := by
  induction names with
  | nil => rfl
  | cons n rest ih =>
    have hn : agents n = true := h n (List.mem_cons_self n rest)
    simp [parSteps, hn, ih fun m hm => h m (List.mem_cons_of_mem n hm)]

/-- With an empty directory, the parallel loop yields no `Partial` event and
collects no result. -/
theorem parSteps_empty_directory (content : String) (names : List String) :
    (parSteps (fun _ => false) content names).1.filter Event.isPartial = [] ∧
    (parSteps (fun _ => false) content names).2 = [] := by
  induction names with
  | nil => exact ⟨rfl, rfl⟩
  | cons n rest ih => simpa [parSteps, Event.isPartial] using ih

/-- The hierarchical worker loop collects one completion notice per worker,
in list order. -/
theorem hierSteps_results (names : List String) :
    (hierSteps names).2 = names.map (fun n => "[" ++ n ++ "]: Completed subtask") := by
  induction names with
  | nil => rfl
  | cons n rest ih => simp [hierSteps, ih]

/-- The hierarchical worker loop never yields a `Final` event. -/
theorem hierSteps_filter_final (names : List String) :
    (hierSteps names).1.filter Event.isFinal = [] := by
  induction names with
  | nil => rfl
  | cons n rest ih => simp [hierSteps, Event.isFinal, ih]

/-! Claim theorems. -/

/-- C1: for every workflow whose pattern is none of Sequential, Parallel,
Hierarchical, `DynamicOrchestrator.process_with_workflow` yields exactly one
`Error` event whose payload names the unsupported pattern and then
terminates; no strategy runs and the agent directory is never queried. -/
theorem dispatcher_unknown_pattern_single_error (workflow : WorkflowConfig)
    (messages : List Message)
    (h1 : workflow.pattern ≠ OrchestrationPattern.sequential)
    (h2 : workflow.pattern ≠ OrchestrationPattern.parallel)
    (h3 : workflow.pattern ≠ OrchestrationPattern.hierarchical) :
    DynamicOrchestrator.process_with_workflow workflow messages =
      some [Event.Error ("Error: Orchestration pattern '" ++
        workflow.pattern.pyStr ++ "' not supported")] ∧
    DynamicOrchestrator.lookups workflow messages = [] := by
  have hmiss : DynamicOrchestrator.orchestrators workflow.pattern = none := by
    cases hp : workflow.pattern <;> simp_all [DynamicOrchestrator.orchestrators]
  exact ⟨by simp [DynamicOrchestrator.process_with_workflow, hmiss],
         by simp [DynamicOrchestrator.lookups, hmiss]⟩

/-- Witness for C1 at the Debate pattern. -/
theorem dispatcher_unknown_pattern_single_error_witness :
    DynamicOrchestrator.process_with_workflow
        ⟨"w", "", OrchestrationPattern.debate, ["a"], none, 10⟩
        [⟨"user", "m"⟩] =
      some [Event.Error
        "Error: Orchestration pattern 'OrchestrationPattern.DEBATE' not supported"] ∧
    DynamicOrchestrator.lookups
        ⟨"w", "", OrchestrationPattern.debate, ["a"], none, 10⟩
        [⟨"user", "m"⟩] = [] := by
  have h := dispatcher_unknown_pattern_single_error
    ⟨"w", "", OrchestrationPattern.debate, ["a"], none, 10⟩ [⟨"user", "m"⟩]
    (by decide) (by decide) (by decide)
  exact ⟨h.1.trans (by decide), h.2⟩

/-- C5: for a Hierarchical workflow with no agents and a non-empty message
list, the stream is exactly one `Error` event (the code's payload is
`"Error: No agents in workflow"`): no `Progress` or `Partial` event, and no
coordinator step. -/
theorem hier_no_agents_single_error (workflow : WorkflowConfig)
    (messages : List Message) (last : Message)
    (hagents : workflow.agents = [])
    (hlast : messages.getLast? = some last) :
    HierarchicalOrchestrator.process_conversation workflow messages =
      some [Event.Error "Error: No agents in workflow"] := by
  simp [HierarchicalOrchestrator.process_conversation, hlast, hagents]

/-- Witness for C5. -/
theorem hier_no_agents_single_error_witness :
    HierarchicalOrchestrator.process_conversation
        ⟨"w", "", OrchestrationPattern.hierarchical, [], none, 10⟩
        [⟨"user", "m"⟩] =
      some [Event.Error "Error: No agents in workflow"] :=
  hier_no_agents_single_error
    ⟨"w", "", OrchestrationPattern.hierarchical, [], none, 10⟩
    [⟨"user", "m"⟩] ⟨"user", "m"⟩ rfl rfl

/-- C7: for a Sequential workflow with an empty agent list and a non-empty
message list, the stream contains exactly one event, the `Final` completion
event. -/
theorem seq_empty_agents_only_final (agents : String → Bool)
    (workflow : WorkflowConfig) (messages : List Message) (last : Message)
    (hagents : workflow.agents = [])
    (hlast : messages.getLast? = some last) :
    SequentialOrchestrator.process_conversation agents workflow messages =
      some [Event.Final "Sequential processing complete"] := by
  simp [SequentialOrchestrator.process_conversation, hlast, hagents, seqSteps]

/-- Witness for C7. -/
theorem seq_empty_agents_only_final_witness :
    SequentialOrchestrator.process_conversation (fun _ => false)
        ⟨"w", "", OrchestrationPattern.sequential, [], none, 10⟩
        [⟨"user", "m"⟩] =
      some [Event.Final "Sequential processing complete"] :=
  seq_empty_agents_only_final (fun _ => false)
    ⟨"w", "", OrchestrationPattern.sequential, [], none, 10⟩
    [⟨"user", "m"⟩] ⟨"user", "m"⟩ rfl rfl

/-- C10: every strategy reads `messages[-1]['content']` before yielding
anything, so on an empty message list each of the three strategies faults
(returns `none`) without emitting a single event — in particular the
Hierarchical strategy with an empty agent list faults instead of emitting its
no-agents `Error` event. -/
theorem empty_messages_fault_before_any_event (agents : String → Bool)
    (workflow : WorkflowConfig) :
    SequentialOrchestrator.process_conversation agents workflow [] = none ∧
    ParallelOrchestrator.process_conversation agents workflow [] = none ∧
    HierarchicalOrchestrator.process_conversation workflow [] = none ∧
    HierarchicalOrchestrator.process_conversation
      { workflow with agents := [] } [] = none := by
  refine ⟨rfl, rfl, rfl, rfl⟩

/-- The last element of a list that ends in two appended items is the second
of them. -/
theorem getLast?_append_pair (xs : List Event) (p f : Event) :
    (xs ++ [p, f]).getLast? = some f := by
  have h : xs ++ [p, f] = (xs ++ [p]) ++ [f] := by simp
  rw [h, List.getLast?_concat]

/-- C2: for a Sequential workflow whose N agents are all present and a
non-empty message list, the stream holds exactly N `Partial` events (one per
agent, in list order: each carrying the chained output of its stage)
followed by exactly one `Final` event, and the `Final` event is last. -/
theorem seq_all_present_partials_then_final (agents : String → Bool)
    (workflow : WorkflowConfig) (messages : List Message) (last : Message)
    (hlast : messages.getLast? = some last)
    (hall : ∀ n ∈ workflow.agents, agents n = true) :
    ∃ evs, SequentialOrchestrator.process_conversation agents workflow messages =
        some evs ∧
      evs.filter Event.isPartial =
        (seqChainedOutputs workflow.agents last.content).map Event.Partial ∧
      (evs.filter Event.isPartial).length = workflow.agents.length ∧
      evs.filter Event.isFinal = [Event.Final "Sequential processing complete"] ∧
      evs.getLast? = some (Event.Final "Sequential processing complete") := by
  refine ⟨seqSteps agents workflow.agents last.content ++
    [Event.Final "Sequential processing complete"], ?_, ?_, ?_, ?_, ?_⟩
  · simp [SequentialOrchestrator.process_conversation, hlast]
  · rw [List.filter_append, seqSteps_filter_partial agents _ _ hall]
    simp [Event.isPartial]
  · rw [List.filter_append, seqSteps_filter_partial agents _ _ hall]
    simp [Event.isPartial, seqChainedOutputs_length]
  · rw [List.filter_append, seqSteps_filter_final]
    simp [Event.isFinal]
  · exact List.getLast?_concat _

/-- Witness for C2 with two present agents. -/
theorem seq_all_present_partials_then_final_witness :
    ∃ evs, SequentialOrchestrator.process_conversation (fun _ => true)
        ⟨"w", "", OrchestrationPattern.sequential, ["a", "b"], none, 10⟩
        [⟨"user", "m"⟩] = some evs ∧
      evs.filter Event.isPartial =
        (seqChainedOutputs ["a", "b"] "m").map Event.Partial ∧
      (evs.filter Event.isPartial).length = (["a", "b"] : List String).length ∧
      evs.filter Event.isFinal = [Event.Final "Sequential processing complete"] ∧
      evs.getLast? = some (Event.Final "Sequential processing complete") :=
  seq_all_present_partials_then_final (fun _ => true)
    ⟨"w", "", OrchestrationPattern.sequential, ["a", "b"], none, 10⟩
    [⟨"user", "m"⟩] ⟨"user", "m"⟩ rfl (by decide)

/-- C4: in a Sequential run over a non-empty message list, an agent absent
from the directory produces a `Warning` event naming it, the running content
is passed unchanged to the remaining agents (which still run), and the run
still ends with the `Final` completion event. -/
theorem seq_missing_agent_warns_and_continues (agents : String → Bool)
    (workflow : WorkflowConfig) (messages : List Message) (last : Message)
    (n : String) (pre rest : List String)
    (hagents : workflow.agents = pre ++ n :: rest)
    (habsent : agents n = false)
    (hlast : messages.getLast? = some last) :
    (∀ c, seqSteps agents (n :: rest) c =
      Event.Progress ("Agent " ++ n ++ " processing...") ::
        Event.Warning ("Warning: Agent " ++ n ++ " not found") ::
          seqSteps agents rest c) ∧
    ∃ evs, SequentialOrchestrator.process_conversation agents workflow messages =
        some evs ∧
      Event.Warning ("Warning: Agent " ++ n ++ " not found") ∈ evs ∧
      evs.getLast? = some (Event.Final "Sequential processing complete") := by
  constructor
  · intro c
    simp [seqSteps, habsent]
  · refine ⟨seqSteps agents workflow.agents last.content ++
      [Event.Final "Sequential processing complete"], ?_, ?_, ?_⟩
    · simp [SequentialOrchestrator.process_conversation, hlast]
    · rw [hagents]
      exact List.mem_append_left _
        (seqSteps_warning_mem agents n habsent pre rest last.content)
    · exact List.getLast?_concat _

/-- Witness for C4 with one absent agent between two present ones. -/
theorem seq_missing_agent_warns_and_continues_witness :
    (∀ c, seqSteps (fun m => m == "a" || m == "b") ("x" :: ["b"]) c =
      Event.Progress ("Agent " ++ "x" ++ " processing...") ::
        Event.Warning ("Warning: Agent " ++ "x" ++ " not found") ::
          seqSteps (fun m => m == "a" || m == "b") ["b"] c) ∧
    ∃ evs, SequentialOrchestrator.process_conversation (fun m => m == "a" || m == "b")
        ⟨"w", "", OrchestrationPattern.sequential, ["a", "x", "b"], none, 10⟩
        [⟨"user", "m"⟩] = some evs ∧
      Event.Warning ("Warning: Agent " ++ "x" ++ " not found") ∈ evs ∧
      evs.getLast? = some (Event.Final "Sequential processing complete") :=
  seq_missing_agent_warns_and_continues (fun m => m == "a" || m == "b")
    ⟨"w", "", OrchestrationPattern.sequential, ["a", "x", "b"], none, 10⟩
    [⟨"user", "m"⟩] ⟨"user", "m"⟩ "x" ["a"] ["b"] rfl rfl rfl

/-- C3 counterexample: with agents a, b, c all present and last message
content "m", the Final event's payload is the blank-line join of the three
results behind the header "Final aggregated result:\n" (line 98 of the
source yields the header in front of the join), so it is not equal to the
bare join the claim states. -/
theorem par_final_payload_header_counterexample :
    (ParallelOrchestrator.process_conversation (fun _ => true)
        ⟨"w", "", OrchestrationPattern.parallel, ["a", "b", "c"], none, 10⟩
        [⟨"user", "m"⟩]).map (fun evs => evs.getLast?) =
      some (some (Event.Final
        "Final aggregated result:\n[a]: Processed - m\n\n[b]: Processed - m\n\n[c]: Processed - m")) ∧
    "Final aggregated result:\n[a]: Processed - m\n\n[b]: Processed - m\n\n[c]: Processed - m" ≠
      "[a]: Processed - m\n\n[b]: Processed - m\n\n[c]: Processed - m" :=
  ⟨by decide, by decide⟩

/-- C3 amended: for a Parallel workflow over agents [a, b, c] all present and
a non-empty message list, the Final event is emitted last and its payload is
the header "Final aggregated result:\n" followed by
result(a) ++ "\n\n" ++ result(b) ++ "\n\n" ++ result(c) — the collected
results joined with a blank-line separator in descriptor (iteration) order. -/
theorem par_final_aggregate_descriptor_order (agents : String → Bool)
    (workflow : WorkflowConfig) (messages : List Message) (last : Message)
    (a b c : String)
    (hagents : workflow.agents = [a, b, c])
    (ha : agents a = true) (hb : agents b = true) (hc : agents c = true)
    (hlast : messages.getLast? = some last) :
    ∃ evs, ParallelOrchestrator.process_conversation agents workflow messages =
        some evs ∧
      evs.getLast? = some (Event.Final ("Final aggregated result:\n" ++
        ("[" ++ a ++ "]: Processed - " ++ last.content) ++ "\n\n" ++
        ("[" ++ b ++ "]: Processed - " ++ last.content) ++ "\n\n" ++
        ("[" ++ c ++ "]: Processed - " ++ last.content))) := by
  refine ⟨(parSteps agents last.content workflow.agents).1 ++
    [Event.Progress "Aggregating results...",
     Event.Final ("Final aggregated result:\n" ++
       joinSep "\n\n" (parSteps agents last.content workflow.agents).2)], ?_, ?_⟩
  · simp [ParallelOrchestrator.process_conversation, hlast]
  · rw [getLast?_append_pair]
    have hres : (parSteps agents last.content workflow.agents).2 =
        ["[" ++ a ++ "]: Processed - " ++ last.content,
         "[" ++ b ++ "]: Processed - " ++ last.content,
         "[" ++ c ++ "]: Processed - " ++ last.content] := by
      rw [hagents]
      simp [parSteps, ha, hb, hc]
    rw [hres]
    simp [joinSep, String.append_assoc]

/-- Witness for the amended C3. -/
theorem par_final_aggregate_descriptor_order_witness :
    ∃ evs, ParallelOrchestrator.process_conversation (fun _ => true)
        ⟨"w", "", OrchestrationPattern.parallel, ["a", "b", "c"], none, 10⟩
        [⟨"user", "m"⟩] = some evs ∧
      evs.getLast? = some (Event.Final ("Final aggregated result:\n" ++
        ("[" ++ "a" ++ "]: Processed - " ++ "m") ++ "\n\n" ++
        ("[" ++ "b" ++ "]: Processed - " ++ "m") ++ "\n\n" ++
        ("[" ++ "c" ++ "]: Processed - " ++ "m"))) :=
  par_final_aggregate_descriptor_order (fun _ => true)
    ⟨"w", "", OrchestrationPattern.parallel, ["a", "b", "c"], none, 10⟩
    [⟨"user", "m"⟩] ⟨"user", "m"⟩ "a" "b" "c" rfl rfl rfl rfl rfl

/-- C6: for a Hierarchical workflow with a coordinator and k workers and a
non-empty message list, the last event is the single `Final` event, whose
payload is the coordinator header plus the newline-join of the k worker
completion notices in worker list order; for workers [w1, w2] the payload
spells out the coordinator name and both workers. -/
theorem hier_final_synthesis (workflow : WorkflowConfig)
    (messages : List Message) (last : Message)
    (coordinator_name : String) (worker_agents : List String)
    (hagents : workflow.agents = coordinator_name :: worker_agents)
    (hlast : messages.getLast? = some last) :
    ∃ evs, HierarchicalOrchestrator.process_conversation workflow messages =
        some evs ∧
      evs.getLast? = some (Event.Final ("Coordinator " ++ coordinator_name ++
        " final output:\n" ++ joinSep "\n"
          (worker_agents.map (fun n => "[" ++ n ++ "]: Completed subtask")))) ∧
      evs.filter Event.isFinal = [Event.Final ("Coordinator " ++ coordinator_name ++
        " final output:\n" ++ joinSep "\n"
          (worker_agents.map (fun n => "[" ++ n ++ "]: Completed subtask")))] ∧
      (∀ w1 w2, worker_agents = [w1, w2] →
        evs.getLast? = some (Event.Final ("Coordinator " ++ coordinator_name ++
          " final output:\n" ++ "[" ++ w1 ++ "]: Completed subtask" ++ "\n" ++
          "[" ++ w2 ++ "]: Completed subtask"))) := by
  have hfin : ("Coordinator " ++ coordinator_name ++ " final output:\n" ++
      joinSep "\n" (hierSteps worker_agents).2) =
      ("Coordinator " ++ coordinator_name ++ " final output:\n" ++ joinSep "\n"
        (worker_agents.map (fun n => "[" ++ n ++ "]: Completed subtask"))) := by
    rw [hierSteps_results]
  refine ⟨Event.Progress ("Coordinator " ++ coordinator_name ++ " analyzing task...") ::
    Event.Progress ("Plan: Will delegate to " ++ toString worker_agents.length ++
      " worker agents") ::
      ((hierSteps worker_agents).1 ++
        [Event.Progress "Coordinator synthesizing results...",
         Event.Final ("Coordinator " ++ coordinator_name ++ " final output:\n" ++
           joinSep "\n" (hierSteps worker_agents).2)]), ?_, ?_, ?_, ?_⟩
  · simp [HierarchicalOrchestrator.process_conversation, hlast, hagents]
  · rw [show ∀ (e₁ e₂ : Event) (l : List Event), (e₁ :: e₂ :: l) = [e₁, e₂] ++ l
        from fun _ _ _ => rfl]
    rw [List.getLast?_append_of_ne_nil, getLast?_append_pair, hfin]
    simp
  · rw [hfin]
    simp only [List.filter_cons, List.filter_append]
    rw [hierSteps_filter_final]
    simp [Event.isFinal]
  · intro w1 w2 hw
    subst hw
    rw [show ∀ (e₁ e₂ : Event) (l : List Event), (e₁ :: e₂ :: l) = [e₁, e₂] ++ l
        from fun _ _ _ => rfl]
    rw [List.getLast?_append_of_ne_nil, getLast?_append_pair]
    · simp only [hierSteps, joinSep, String.append_assoc]
    · simp

/-- Witness for C6 with coordinator "co" and workers ["w1", "w2"]. -/
theorem hier_final_synthesis_witness :
    ∃ evs, HierarchicalOrchestrator.process_conversation
        ⟨"w", "", OrchestrationPattern.hierarchical, ["co", "w1", "w2"], none, 10⟩
        [⟨"user", "m"⟩] = some evs ∧
      evs.getLast? = some (Event.Final ("Coordinator " ++ "co" ++
        " final output:\n" ++ joinSep "\n"
          ((["w1", "w2"] : List String).map
            (fun n => "[" ++ n ++ "]: Completed subtask")))) ∧
      evs.filter Event.isFinal = [Event.Final ("Coordinator " ++ "co" ++
        " final output:\n" ++ joinSep "\n"
          ((["w1", "w2"] : List String).map
            (fun n => "[" ++ n ++ "]: Completed subtask")))] ∧
      (∀ w1 w2, (["w1", "w2"] : List String) = [w1, w2] →
        evs.getLast? = some (Event.Final ("Coordinator " ++ "co" ++
          " final output:\n" ++ "[" ++ w1 ++ "]: Completed subtask" ++ "\n" ++
          "[" ++ w2 ++ "]: Completed subtask"))) :=
  hier_final_synthesis
    ⟨"w", "", OrchestrationPattern.hierarchical, ["co", "w1", "w2"], none, 10⟩
    [⟨"user", "m"⟩] ⟨"user", "m"⟩ "co" ["w1", "w2"] rfl rfl

/-- C8: in a Parallel run, an agent absent from the directory yields only its
progress line — no result is appended, no `Partial` event for it — and,
unlike the Sequential strategy, no `Warning` event appears anywhere in a
Parallel stream, so the absent agent contributes nothing to the aggregated
Final payload. -/
theorem par_missing_agent_silent (agents : String → Bool) (n : String)
    (habsent : agents n = false) :
    (∀ content rest, parSteps agents content (n :: rest) =
      (Event.Progress ("Agent " ++ n ++ " starting...") ::
        (parSteps agents content rest).1,
       (parSteps agents content rest).2)) ∧
    (∀ (workflow : WorkflowConfig) (messages : List Message) (evs : List Event),
      ParallelOrchestrator.process_conversation agents workflow messages = some evs →
      evs.filter Event.isWarning = []) := by
  constructor
  · intro content rest
    simp [parSteps, habsent]
  · intro workflow messages evs h
    cases hm : messages.getLast? with
    | none => simp [ParallelOrchestrator.process_conversation, hm] at h
    | some last =>
      simp [ParallelOrchestrator.process_conversation, hm] at h
      subst h
      rw [List.filter_append, parSteps_filter_warning]
      simp [Event.isWarning]

/-- Witness for C8 with the absent agent "x". -/
theorem par_missing_agent_silent_witness :
    (∀ content rest, parSteps (fun _ => false) content ("x" :: rest) =
      (Event.Progress ("Agent " ++ "x" ++ " starting...") ::
        (parSteps (fun _ => false) content rest).1,
       (parSteps (fun _ => false) content rest).2)) ∧
    (∀ (workflow : WorkflowConfig) (messages : List Message) (evs : List Event),
      ParallelOrchestrator.process_conversation (fun _ => false) workflow messages =
        some evs →
      evs.filter Event.isWarning = []) :=
  par_missing_agent_silent (fun _ => false) "x" rfl

/-- C9: every strategy the dispatcher constructs starts from
`self.agents = {}` and nothing populates it, so through
`DynamicOrchestrator.process_with_workflow` every directory lookup misses: a
Sequential run emits a Warning per listed agent and no Partial event, and a
Parallel run collects no results, so its aggregate is the join of the empty
list — the empty string. -/
theorem dispatcher_strategies_empty_directory (workflow : WorkflowConfig)
    (messages : List Message) (last : Message)
    (hlast : messages.getLast? = some last) :
    (workflow.pattern = OrchestrationPattern.sequential →
      ∃ evs, DynamicOrchestrator.process_with_workflow workflow messages = some evs ∧
        evs.filter Event.isPartial = [] ∧
        evs.filter Event.isWarning = workflow.agents.map
          (fun n => Event.Warning ("Warning: Agent " ++ n ++ " not found"))) ∧
    (workflow.pattern = OrchestrationPattern.parallel →
      ∃ evs, DynamicOrchestrator.process_with_workflow workflow messages = some evs ∧
        evs.filter Event.isPartial = [] ∧
        evs.getLast? = some (Event.Final ("Final aggregated result:\n" ++
          joinSep "\n\n" []))) := by
  constructor
  · intro hp
    refine ⟨seqSteps (fun _ => false) workflow.agents last.content ++
      [Event.Final "Sequential processing complete"], ?_, ?_, ?_⟩
    · simp [DynamicOrchestrator.process_with_workflow,
        DynamicOrchestrator.orchestrators, hp,
        SequentialOrchestrator.process_conversation, hlast]
    · rw [List.filter_append, (seqSteps_empty_directory workflow.agents last.content).1]
      simp [Event.isPartial]
    · rw [List.filter_append, (seqSteps_empty_directory workflow.agents last.content).2]
      simp [Event.isWarning]
  · intro hp
    refine ⟨(parSteps (fun _ => false) last.content workflow.agents).1 ++
      [Event.Progress "Aggregating results...",
       Event.Final ("Final aggregated result:\n" ++
         joinSep "\n\n" (parSteps (fun _ => false) last.content workflow.agents).2)],
      ?_, ?_, ?_⟩
    · simp [DynamicOrchestrator.process_with_workflow,
        DynamicOrchestrator.orchestrators, hp,
        ParallelOrchestrator.process_conversation, hlast]
    · rw [List.filter_append, (parSteps_empty_directory last.content workflow.agents).1]
      simp [Event.isPartial]
    · rw [getLast?_append_pair,
        (parSteps_empty_directory last.content workflow.agents).2]

/-- Witness for C9 at a Sequential workflow with one listed agent. -/
theorem dispatcher_strategies_empty_directory_witness :
    ((⟨"w", "", OrchestrationPattern.sequential, ["a"], none, 10⟩ :
        WorkflowConfig).pattern = OrchestrationPattern.sequential →
      ∃ evs, DynamicOrchestrator.process_with_workflow
          ⟨"w", "", OrchestrationPattern.sequential, ["a"], none, 10⟩
          [⟨"user", "m"⟩] = some evs ∧
        evs.filter Event.isPartial = [] ∧
        evs.filter Event.isWarning =
          (⟨"w", "", OrchestrationPattern.sequential, ["a"], none, 10⟩ :
            WorkflowConfig).agents.map
            (fun n => Event.Warning ("Warning: Agent " ++ n ++ " not found"))) ∧
    ((⟨"w", "", OrchestrationPattern.sequential, ["a"], none, 10⟩ :
        WorkflowConfig).pattern = OrchestrationPattern.parallel →
      ∃ evs, DynamicOrchestrator.process_with_workflow
          ⟨"w", "", OrchestrationPattern.sequential, ["a"], none, 10⟩
          [⟨"user", "m"⟩] = some evs ∧
        evs.filter Event.isPartial = [] ∧
        evs.getLast? = some (Event.Final ("Final aggregated result:\n" ++
          joinSep "\n\n" []))) :=
  dispatcher_strategies_empty_directory
    ⟨"w", "", OrchestrationPattern.sequential, ["a"], none, 10⟩
    [⟨"user", "m"⟩] ⟨"user", "m"⟩ rfl
